import Mathlib

/-!
Formal model of the DB-backed OCI plugin discovery of tanzu-cli
(package `discovery` in the repository): the cache-validation and refresh
protocol (`checkDigestFileExistence`, `checkImageCache`,
`fetchInventoryImage`, `downloadInventoryDatabase`) and the query layer
built on top of it (`listPluginsFromInventory`, `List`, `GetGroups`).

The cache directory (`pluginDataDir`) of one discovery is modelled as the
list of file names it holds plus, separately, the content of the catalog
file `plugin_inventory.db`.  The catalog file never matches a digest glob
and the digest-marker handling never touches it, so keeping it apart is a
faithful split.  External collaborators (digest probe, signature verifier,
artifact fetcher, overlay merge, catalog store) are oracles supplied as
explicit parameters recording their outcomes.
-/

namespace TanzuDiscovery

/-- The cache directory owned by one discovery: the marker (and any other)
file names present in `pluginDataDir`, and the content of the
`plugin_inventory.db` catalog file (`none` when that file is absent). -/
structure CacheState where
  files : List String
  catalog : Option String
deriving DecidableEq

/-- Effect of `os.Remove` of a single file on the cache directory. -/
def removeFile (st : CacheState) (f : String) : CacheState :=
  { st with files := st.files.filter (fun g => g != f) }

/-- Effect of the loop `for _, filePath := range matches { os.Remove(filePath) }`. -/
def removeFiles (st : CacheState) (fs : List String) : CacheState :=
  { st with files := st.files.filter (fun g => !(fs.contains g)) }

/-- Effect of `os.Create` of a marker file (empty content; creating an
already-present file truncates it, leaving the name set unchanged). -/
def createFile (st : CacheState) (f : String) : CacheState :=
  if st.files.contains f then st else { st with files := f :: st.files }

/-- Whether a file name matches the pattern `<digestPrefix>digest.*` used with
`filepath.Glob`: the name must start with the literal part of the pattern,
and `*` matches any (possibly empty) remainder without separators (file
names inside one directory contain no separator). -/
def matchesDigestGlob (digestPfx f : String) : Bool :=
  (digestPfx ++ "digest.").data.isPrefixOf f.data

/-- The files of the cache directory matching `<digestPrefix>digest.*`,
as computed by `filepath.Glob` (order of the directory listing is kept;
the code never depends on the order of the matches). -/
def globMatches (st : CacheState) (digestPfx : String) : List String :=
  st.files.filter (fun f => matchesDigestGlob digestPfx f)

/-- The expected digest-marker file name `<digestPrefix>digest.<hash>`, with
the sentinel `"none"` substituted when the probed digest value is empty
(`hashHexVal = "none"` substitution at the top of `checkDigestFileExistence`). -/
def expectedMarker (hashHexVal digestPfx : String) : String :=
  digestPfx ++ "digest." ++ (if hashHexVal = "" then "none" else hashHexVal)

/-- Model of `checkDigestFileExistence` (discovery source, lines 304-331):
case analysis over the files matching `<digestPrefix>digest.*`; returns the
marker file name that still has to be created (empty when the cache is
up-to-date) together with the resulting cache directory. -/
def checkDigestFileExistence (st : CacheState) (hashHexVal digestPfx : String) :
    String × CacheState :=
  if (globMatches st digestPfx).length > 1 then
    -- Too many digest files: cleanup the cache (delete every match).
    (expectedMarker hashHexVal digestPfx, removeFiles st (globMatches st digestPfx))
  else
    match globMatches st digestPfx with
    | [m] =>
      if m = expectedMarker hashHexVal digestPfx then
        -- The hash file exists: the DB is up-to-date.
        ("", st)
      else
        -- A different digest hash: remove the old hash file.
        (expectedMarker hashHexVal digestPfx, removeFile st m)
    | _ => (expectedMarker hashHexVal digestPfx, st)

/-! ### Helper lemmas about glob matching and the cache-directory operations -/

theorem contains_eq_true_of_mem {l : List String} {a : String} (h : a ∈ l) :
    l.contains a = true :=
  List.elem_iff.mpr h

theorem mem_of_contains_eq_true {l : List String} {a : String} (h : l.contains a = true) :
    a ∈ l :=
  List.elem_iff.mp h

theorem mem_globMatches {st : CacheState} {p x : String} :
    x ∈ globMatches st p ↔ x ∈ st.files ∧ matchesDigestGlob p x = true := by
  unfold globMatches
  exact List.mem_filter

theorem expectedMarker_ne_empty (hashHexVal digestPfx : String) :
    expectedMarker hashHexVal digestPfx ≠ "" := by
  intro h
  have h2 : (expectedMarker hashHexVal digestPfx).data = [] := by rw [h]
  simp only [expectedMarker, String.data_append] at h2
  rcases List.append_eq_nil.mp h2 with ⟨h3, _⟩
  rcases List.append_eq_nil.mp h3 with ⟨_, h4⟩
  simp at h4

theorem isPrefixOf_cons_false {a b : Char} (as bs : List Char) (hab : a ≠ b) :
    (a :: as).isPrefixOf (b :: bs) = false := by
  rw [List.isPrefixOf_cons₂]
  have hf : (a == b) = false := beq_eq_false_iff_ne.mpr hab
  simp [hf]

theorem isPrefixOf_false_of_head_ne {a b : Char} (as bs l : List Char) (hab : a ≠ b)
    (h1 : (a :: as).isPrefixOf l = true) : (b :: bs).isPrefixOf l = false := by
  cases l with
  | nil => simp at h1
  | cons c cs =>
    rw [List.isPrefixOf_cons₂, Bool.and_eq_true] at h1
    have hac : a = c := eq_of_beq h1.1
    subst hac
    exact isPrefixOf_cons_false bs cs (fun hba => hab hba.symm)

theorem matchesDigestGlob_expected (hashHexVal digestPfx : String) :
    matchesDigestGlob digestPfx (expectedMarker hashHexVal digestPfx) = true := by
  unfold matchesDigestGlob expectedMarker
  simp only [String.data_append]
  rw [List.isPrefixOf_iff_prefix]
  exact List.prefix_append _ _

theorem matchesDigestGlob_meta_of_base {f : String}
    (h : matchesDigestGlob "" f = true) : matchesDigestGlob "metadata." f = false := by
  unfold matchesDigestGlob at h ⊢
  have e1 : (("" : String) ++ "digest.").data = 'd' :: "igest.".data := rfl
  have e2 : (("metadata." : String) ++ "digest.").data = 'm' :: "etadata.digest.".data := rfl
  rw [e1] at h
  rw [e2]
  exact isPrefixOf_false_of_head_ne _ _ _ (by decide) h

theorem matchesDigestGlob_base_of_meta {f : String}
    (h : matchesDigestGlob "metadata." f = true) : matchesDigestGlob "" f = false := by
  unfold matchesDigestGlob at h ⊢
  have e1 : (("" : String) ++ "digest.").data = 'd' :: "igest.".data := rfl
  have e2 : (("metadata." : String) ++ "digest.").data = 'm' :: "etadata.digest.".data := rfl
  rw [e2] at h
  rw [e1]
  exact isPrefixOf_false_of_head_ne _ _ _ (by decide) h

theorem globMatches_removeFiles_self (st : CacheState) (p : String) :
    globMatches (removeFiles st (globMatches st p)) p = [] := by
  rw [List.eq_nil_iff_forall_not_mem]
  intro x hx
  unfold globMatches removeFiles at hx
  rw [List.filter_filter, List.mem_filter] at hx
  obtain ⟨hxl, hxb⟩ := hx
  rw [Bool.and_eq_true] at hxb
  obtain ⟨hglob, hnotin⟩ := hxb
  have hxm : x ∈ st.files.filter (fun f => matchesDigestGlob p f) :=
    List.mem_filter.mpr ⟨hxl, hglob⟩
  rw [contains_eq_true_of_mem hxm] at hnotin
  simp at hnotin

theorem globMatches_removeFile_single (st : CacheState) (p m : String)
    (hm : globMatches st p = [m]) : globMatches (removeFile st m) p = [] := by
  rw [List.eq_nil_iff_forall_not_mem]
  intro x hx
  unfold globMatches removeFile at hx
  rw [List.filter_filter, List.mem_filter] at hx
  obtain ⟨hxl, hxb⟩ := hx
  rw [Bool.and_eq_true] at hxb
  obtain ⟨hglob, hne⟩ := hxb
  have hxm : x ∈ globMatches st p := mem_globMatches.mpr ⟨hxl, hglob⟩
  rw [hm, List.mem_singleton] at hxm
  subst hxm
  simp at hne

theorem globMatches_removeFiles_disj (st : CacheState) (fs : List String) (q : String)
    (hfs : ∀ f ∈ fs, matchesDigestGlob q f = false) :
    globMatches (removeFiles st fs) q = globMatches st q := by
  unfold globMatches removeFiles
  rw [List.filter_filter]
  apply List.filter_congr
  intro x _
  by_cases hx : x ∈ fs
  · rw [hfs x hx]
    simp
  · have hc : fs.contains x = false := by
      cases hcc : fs.contains x
      · rfl
      · exact absurd (mem_of_contains_eq_true hcc) hx
    rw [hc]
    simp

theorem globMatches_removeFile_disj (st : CacheState) (m q : String)
    (hm : matchesDigestGlob q m = false) :
    globMatches (removeFile st m) q = globMatches st q := by
  unfold globMatches removeFile
  rw [List.filter_filter]
  apply List.filter_congr
  intro x _
  cases hq : matchesDigestGlob q x with
  | false => simp [hq]
  | true =>
    have hxm : x ≠ m := fun he => by
      rw [he, hm] at hq
      exact Bool.false_ne_true hq
    simp [hq, hxm]

theorem globMatches_createFile_disj (st : CacheState) (n q : String)
    (hn : matchesDigestGlob q n = false) :
    globMatches (createFile st n) q = globMatches st q := by
  unfold createFile
  split
  · rfl
  · unfold globMatches
    simp [List.filter_cons, hn]

theorem globMatches_createFile_self (st : CacheState) (n q : String)
    (hq : matchesDigestGlob q n = true) (hnil : globMatches st q = []) :
    globMatches (createFile st n) q = [n] := by
  unfold createFile
  split
  · rename_i hc
    have hmem : n ∈ globMatches st q :=
      mem_globMatches.mpr ⟨mem_of_contains_eq_true hc, hq⟩
    rw [hnil] at hmem
    exact absurd hmem (List.not_mem_nil n)
  · unfold globMatches at hnil ⊢
    simp [List.filter_cons, hq, hnil]

theorem createFile_catalog (st : CacheState) (n : String) :
    (createFile st n).catalog = st.catalog := by
  unfold createFile
  split <;> rfl

theorem mem_createFile_self (st : CacheState) (n : String) :
    n ∈ (createFile st n).files := by
  unfold createFile
  split
  · rename_i hc
    exact mem_of_contains_eq_true hc
  · exact List.mem_cons_self n st.files

theorem mem_createFile_of_mem (st : CacheState) (n x : String) (h : x ∈ st.files) :
    x ∈ (createFile st n).files := by
  unfold createFile
  split
  · exact h
  · exact List.mem_cons_of_mem n h

/-- Full case analysis of `checkDigestFileExistence`, shared by the proofs
below: exactly one of the four cases of the source's case split applies. -/
theorem checkDigest_spec (st : CacheState) (h p : String) :
    (1 < (globMatches st p).length ∧
      checkDigestFileExistence st h p = (expectedMarker h p, removeFiles st (globMatches st p)))
    ∨ (globMatches st p = [expectedMarker h p] ∧ checkDigestFileExistence st h p = ("", st))
    ∨ (∃ x, globMatches st p = [x] ∧ x ≠ expectedMarker h p ∧
        checkDigestFileExistence st h p = (expectedMarker h p, removeFile st x))
    ∨ (globMatches st p = [] ∧ checkDigestFileExistence st h p = (expectedMarker h p, st)) := by
  unfold checkDigestFileExistence
  split
  · rename_i hlen
    exact Or.inl ⟨hlen, rfl⟩
  · rename_i hlen
    split
    · rename_i m hm
      by_cases hme : m = expectedMarker h p
      · rw [if_pos hme]
        exact Or.inr (Or.inl ⟨by rw [hm, hme], rfl⟩)
      · rw [if_neg hme]
        exact Or.inr (Or.inr (Or.inl ⟨m, hm, hme, rfl⟩))
    · rename_i hnot
      have hnil : globMatches st p = [] := by
        cases hgm : globMatches st p with
        | nil => rfl
        | cons a t =>
          cases t with
          | nil => exact absurd hgm (by intro hc; exact hnot a hc)
          | cons b u =>
            exact absurd (by rw [hgm, List.length_cons, List.length_cons]; omega) hlen
      exact Or.inr (Or.inr (Or.inr ⟨hnil, rfl⟩))

theorem checkDigest_catalog (st : CacheState) (h p : String) :
    ((checkDigestFileExistence st h p).2).catalog = st.catalog := by
  rcases checkDigest_spec st h p with ⟨_, he⟩ | ⟨_, he⟩ | ⟨x, _, _, he⟩ | ⟨_, he⟩ <;>
    rw [he] <;> rfl

theorem checkDigest_files_subset (st : CacheState) (h p : String) :
    ∀ f ∈ ((checkDigestFileExistence st h p).2).files, f ∈ st.files := by
  rcases checkDigest_spec st h p with ⟨_, he⟩ | ⟨_, he⟩ | ⟨x, _, _, he⟩ | ⟨_, he⟩ <;>
    rw [he] <;> intro f hf
  · exact (List.mem_filter.mp hf).1
  · exact hf
  · exact (List.mem_filter.mp hf).1
  · exact hf

theorem checkDigest_fst_cases (st : CacheState) (h p : String) :
    (checkDigestFileExistence st h p).1 = "" ∨
    (checkDigestFileExistence st h p).1 = expectedMarker h p := by
  rcases checkDigest_spec st h p with ⟨_, he⟩ | ⟨_, he⟩ | ⟨x, _, _, he⟩ | ⟨_, he⟩ <;> rw [he]
  · exact Or.inr rfl
  · exact Or.inl rfl
  · exact Or.inr rfl
  · exact Or.inr rfl

theorem checkDigest_snd_of_fst_empty (st : CacheState) (h p : String)
    (he : (checkDigestFileExistence st h p).1 = "") :
    (checkDigestFileExistence st h p).2 = st ∧ globMatches st p = [expectedMarker h p] := by
  rcases checkDigest_spec st h p with ⟨_, hr⟩ | ⟨hm, hr⟩ | ⟨x, _, _, hr⟩ | ⟨_, hr⟩ <;>
    rw [hr] at he ⊢
  · exact absurd he (expectedMarker_ne_empty h p)
  · exact ⟨rfl, hm⟩
  · exact absurd he (expectedMarker_ne_empty h p)
  · exact absurd he (expectedMarker_ne_empty h p)

theorem globMatches_after_check (st : CacheState) (h p : String) :
    globMatches ((checkDigestFileExistence st h p).2) p =
      (if (checkDigestFileExistence st h p).1 = "" then [expectedMarker h p] else []) := by
  rcases checkDigest_spec st h p with ⟨_, he⟩ | ⟨hm, he⟩ | ⟨x, hm, _, he⟩ | ⟨hm, he⟩ <;> rw [he]
  · rw [if_neg (expectedMarker_ne_empty h p)]
    exact globMatches_removeFiles_self st p
  · rw [if_pos rfl]
    exact hm
  · rw [if_neg (expectedMarker_ne_empty h p)]
    exact globMatches_removeFile_single st p x hm
  · rw [if_neg (expectedMarker_ne_empty h p)]
    exact hm

theorem checkDigest_disj (st : CacheState) (h p q : String)
    (hdisj : ∀ f, matchesDigestGlob p f = true → matchesDigestGlob q f = false) :
    globMatches ((checkDigestFileExistence st h p).2) q = globMatches st q := by
  rcases checkDigest_spec st h p with ⟨_, he⟩ | ⟨_, he⟩ | ⟨x, hm, _, he⟩ | ⟨_, he⟩
  · have h2 : (checkDigestFileExistence st h p).2 = removeFiles st (globMatches st p) := by
      rw [he]
    rw [h2]
    exact globMatches_removeFiles_disj st _ q
      (fun f hf => hdisj f (mem_globMatches.mp hf).2)
  · have h2 : (checkDigestFileExistence st h p).2 = st := by rw [he]
    rw [h2]
  · have h2 : (checkDigestFileExistence st h p).2 = removeFile st x := by rw [he]
    rw [h2]
    have hx : matchesDigestGlob p x = true :=
      (mem_globMatches.mp (by rw [hm]; exact List.mem_singleton_self x)).2
    exact globMatches_removeFile_disj st x q (hdisj x hx)
  · have h2 : (checkDigestFileExistence st h p).2 = st := by rw [he]
    rw [h2]

/-- C1: `checkDigestFileExistence` behaves by exact case analysis on the
files matching `<prefix>digest.*`: more than one match deletes all matches
and returns the expected name; exactly one match equal to the expected name
returns the empty string and leaves the cache untouched; exactly one
different match deletes it and returns the expected name; zero matches
returns the expected name with the cache untouched.  The expected name is
`<prefix>digest.<v>` with the sentinel `none` substituted for an empty
probed digest. -/
theorem checkDigestFileExistence_cases (st : CacheState) (hashHexVal digestPfx : String) :
    (1 < (globMatches st digestPfx).length →
      checkDigestFileExistence st hashHexVal digestPfx =
        (expectedMarker hashHexVal digestPfx, removeFiles st (globMatches st digestPfx))) ∧
    (globMatches st digestPfx = [expectedMarker hashHexVal digestPfx] →
      checkDigestFileExistence st hashHexVal digestPfx = ("", st)) ∧
    (∀ x, globMatches st digestPfx = [x] → x ≠ expectedMarker hashHexVal digestPfx →
      checkDigestFileExistence st hashHexVal digestPfx =
        (expectedMarker hashHexVal digestPfx, removeFile st x)) ∧
    (globMatches st digestPfx = [] →
      checkDigestFileExistence st hashHexVal digestPfx =
        (expectedMarker hashHexVal digestPfx, st)) := by
  refine ⟨?_, ?_, ?_, ?_⟩
  · intro h
    rw [checkDigestFileExistence, if_pos h]
  · intro h
    rw [checkDigestFileExistence, if_neg (by rw [h]; simp), h]
    simp
  · intro x hx hne
    rw [checkDigestFileExistence, if_neg (by rw [hx]; simp), hx]
    simp [hne]
  · intro h
    rw [checkDigestFileExistence, if_neg (by rw [h]; simp), h]

/-- Concrete instances of the four cases of `checkDigestFileExistence_cases`:
two matches get cleaned up; a single up-to-date marker is kept; a single
stale marker is replaced; an empty cache asks for creation. -/
theorem checkDigestFileExistence_cases_witness :
    (checkDigestFileExistence ⟨["digest.a", "digest.b"], none⟩ "d1" "" =
      ("digest.d1", ⟨[], none⟩)) ∧
    (checkDigestFileExistence ⟨["digest.d1"], none⟩ "d1" "" = ("", ⟨["digest.d1"], none⟩)) ∧
    (checkDigestFileExistence ⟨["digest.old"], none⟩ "d1" "" =
      ("digest.d1", ⟨[], none⟩)) ∧
    (checkDigestFileExistence ⟨[], none⟩ "" "metadata." =
      ("metadata.digest.none", ⟨[], none⟩)) := by
  refine ⟨?_, ?_, ?_, ?_⟩
  · exact ((checkDigestFileExistence_cases ⟨["digest.a", "digest.b"], none⟩ "d1" "").1
      (by decide)).trans (by decide)
  · exact ((checkDigestFileExistence_cases ⟨["digest.d1"], none⟩ "d1" "").2.1
      (by decide)).trans (by decide)
  · exact ((checkDigestFileExistence_cases ⟨["digest.old"], none⟩ "d1" "").2.2.1
      "digest.old" (by decide) (by decide)).trans (by decide)
  · exact ((checkDigestFileExistence_cases ⟨[], none⟩ "" "metadata.").2.2.2
      (by decide)).trans (by decide)

/-! ### The discovery source and the refresh protocol -/

/-- Conditions a plugin must respect to be discovered (`PluginDiscoveryCriteria`). -/
structure PluginDiscoveryCriteria where
  name : String
  target : String
  version : String
  os : String
  arch : String
deriving DecidableEq

/-- Conditions a plugin group must respect to be discovered (`GroupDiscoveryCriteria`). -/
structure GroupDiscoveryCriteria where
  vendor : String
  publisher : String
  name : String
  version : String
deriving DecidableEq

/-- The fields of `DBBackedOCIDiscovery` that drive the logic modelled here.
`pluginDataDir` is the cache directory, carried separately as `CacheState`;
the `inventory` collaborator is passed as an oracle to the query functions. -/
structure DBBackedOCIDiscovery where
  name : String
  image : String
  pluginCriteria : Option PluginDiscoveryCriteria
  groupCriteria : Option GroupDiscoveryCriteria
  useLocalCacheOnly : Bool
deriving DecidableEq

/-- Outcomes of the external collaborators during one refresh attempt:
`baseDigest` is `carvelhelpers.GetImageDigest(od.image)`; `metaDigest` is
the hash returned for the metadata image (the empty string when that probe
fails — its error is discarded by `checkImageCache`); `sigVerify` is
`sigverifier.VerifyInventoryImageSignature` (`some err` on failure);
`baseDownload` is the base-image download, giving the content of the
downloaded `plugin_inventory.db` on success; `metaDownload` is the metadata
image download (`none` on failure — its error is discarded); `mergeResult`
is `UpdatePluginInventoryDatabase` (the merged database content on
success); `copyErr` is `utils.CopyFile` into the cache directory. -/
instance {ε α : Type} [DecidableEq ε] [DecidableEq α] : DecidableEq (Except ε α) := fun x y =>
  match x, y with
  | .error e, .error f =>
    if h : e = f then .isTrue (by rw [h])
    else .isFalse (by intro hc; injection hc with h2; exact h h2)
  | .error _, .ok _ => .isFalse (by intro hc; exact Except.noConfusion hc)
  | .ok _, .error _ => .isFalse (by intro hc; exact Except.noConfusion hc)
  | .ok a, .ok b =>
    if h : a = b then .isTrue (by rw [h])
    else .isFalse (by intro hc; injection hc with h2; exact h h2)

structure FetchEnv where
  baseDigest : Except String String
  metaDigest : String
  sigVerify : Option String
  baseDownload : Except String String
  metaDownload : Option String
  mergeResult : Except String String
  copyErr : Option String
deriving DecidableEq

/-- Counts of the network operations performed by one call: digest probes of
the base and metadata images, signature verifications, and downloads. -/
structure Trace where
  baseProbes : Nat
  metaProbes : Nat
  verifies : Nat
  baseDownloads : Nat
  metaDownloads : Nat
deriving DecidableEq

/-- Error of `checkImageCache` when the digest probe of the base image
reference fails (built with `errors.Wrapf`, naming `od.image` via `%q`). -/
def resolutionFailureMsg (image cause : String) : String :=
  "plugins discovery image resolution failed. Please check that the repository image URL \"" ++
    image ++ "\" is correct: " ++ cause

/-- Model of `checkImageCache` (lines 268-295): probe the base digest
(failure is fatal), probe the metadata digest (failure gives the empty
string, replaced by the `none` sentinel inside `checkDigestFileExistence`),
and run `checkDigestFileExistence` for both prefixes on the cache. -/
def checkImageCache (image : String) (env : FetchEnv) (st : CacheState) :
    Except String (String × String × CacheState) :=
  match env.baseDigest with
  | .error e => .error (resolutionFailureMsg image e)
  | .ok hashHexValInventoryImage =>
    let r1 := checkDigestFileExistence st hashHexValInventoryImage ""
    let r2 := checkDigestFileExistence r1.2 env.metaDigest "metadata."
    .ok (r1.1, r2.1, r2.2)

/-- Error of `downloadInventoryDatabase` when the base image download fails
(built with `errors.Wrapf`, naming the discovery via `'%s'`). -/
def downloadFailureMsg (name cause : String) : String :=
  "failed to download OCI image from discovery '" ++ name ++ "': " ++ cause

/-- Error of `downloadInventoryDatabase` when the overlay merge fails. -/
def mergeFailureMsg (cause : String) : String :=
  "error while updating inventory database based on the inventory metadata database: " ++ cause

/-- Model of `downloadInventoryDatabase` (lines 222-255): download the base
image into a temporary directory (failure fatal); attempt the metadata
image download (failure ignored, merge skipped); when the metadata download
succeeded, merge the metadata database onto the base database in place
(failure fatal); finally copy the resulting `plugin_inventory.db` into the
cache directory.  The temporary directories are process-local and their
scoped removal does not affect the cache, so they are not part of the state. -/
def downloadInventoryDatabase (name : String) (env : FetchEnv) (st : CacheState) :
    Except String CacheState :=
  match env.baseDownload with
  | .error e => .error (downloadFailureMsg name e)
  | .ok invContent =>
    match env.metaDownload with
    | some _ =>
      match env.mergeResult with
      | .error e => .error (mergeFailureMsg e)
      | .ok mergedContent =>
        match env.copyErr with
        | some e => .error e
        | none => .ok { st with catalog := some mergedContent }
    | none =>
      match env.copyErr with
      | some e => .error e
      | none => .ok { st with catalog := some invContent }

/-- Network activity of `downloadInventoryDatabase`: the base download is
always attempted, the metadata download only after the base one succeeded. -/
def downloadTrace (env : FetchEnv) : Trace :=
  match env.baseDownload with
  | .error _ => ⟨0, 0, 0, 1, 0⟩
  | .ok _ => ⟨0, 0, 0, 1, 1⟩

/-- Creation of the digest marker files after a successful download
(lines 204-211): `os.Create` is called for each non-empty returned marker
name, base first, its error discarded. -/
def createMarkers (f1 f2 : String) (st2 : CacheState) : CacheState :=
  if f2 = "" then (if f1 = "" then st2 else createFile st2 f1)
  else createFile (if f1 = "" then st2 else createFile st2 f1) f2

/-- The part of `fetchInventoryImage` after the cache check returned the
two marker names `f1`, `f2` and the cache `st1`: early success when both
names are empty, otherwise signature verification, download, and creation
of the non-empty digest marker files (creation errors are discarded). -/
def fetchAfterCheck (od : DBBackedOCIDiscovery) (env : FetchEnv)
    (f1 f2 : String) (st1 : CacheState) : Except String Unit × CacheState × Trace :=
  if f1 = "" ∧ f2 = "" then
    (.ok (), st1, ⟨1, 1, 0, 0, 0⟩)
  else
    match env.sigVerify with
    | some e => (.error e, st1, ⟨1, 1, 1, 0, 0⟩)
    | none =>
      match downloadInventoryDatabase od.name env st1 with
      | .error e =>
        (.error e, st1,
          ⟨1, 1, 1, (downloadTrace env).baseDownloads, (downloadTrace env).metaDownloads⟩)
      | .ok st2 =>
        (.ok (), createMarkers f1 f2 st2,
          ⟨1, 1, 1, (downloadTrace env).baseDownloads, (downloadTrace env).metaDownloads⟩)

/-- Model of `fetchInventoryImage` (lines 175-214): check the cache; when
both marker names are empty the cache is re-used and nothing else happens;
otherwise verify the image signature, download the database(s), and create
the non-empty digest marker files. -/
def fetchInventoryImage (od : DBBackedOCIDiscovery) (env : FetchEnv) (st : CacheState) :
    Except String Unit × CacheState × Trace :=
  match checkImageCache od.image env st with
  | .error e => (.error e, st, ⟨1, 0, 0, 0, 0⟩)
  | .ok (f1, f2, st1) => fetchAfterCheck od env f1 f2 st1

/-- When the base digest probe succeeds, `checkImageCache` always succeeds,
returning the two marker names and the cache after both digest checks. -/
theorem checkImageCache_ok (image : String) (env : FetchEnv) (st : CacheState) (d : String)
    (hd : env.baseDigest = .ok d) :
    checkImageCache image env st =
      .ok ((checkDigestFileExistence st d "").1,
           (checkDigestFileExistence (checkDigestFileExistence st d "").2
             env.metaDigest "metadata.").1,
           (checkDigestFileExistence (checkDigestFileExistence st d "").2
             env.metaDigest "metadata.").2) := by
  unfold checkImageCache
  rw [hd]

/-- Catalog content is untouched by the two digest checks of `checkImageCache`. -/
theorem checkChain_catalog (st : CacheState) (d m : String) :
    ((checkDigestFileExistence (checkDigestFileExistence st d "").2 m "metadata.").2).catalog =
      st.catalog := by
  rw [checkDigest_catalog, checkDigest_catalog]

/-- The two digest checks of `checkImageCache` only ever delete files. -/
theorem checkChain_subset (st : CacheState) (d m : String) :
    ∀ f ∈ ((checkDigestFileExistence (checkDigestFileExistence st d "").2 m "metadata.").2).files,
      f ∈ st.files :=
  fun f hf =>
    checkDigest_files_subset st d "" f
      (checkDigest_files_subset (checkDigestFileExistence st d "").2 m "metadata." f hf)

/-- Unfolding of `fetchInventoryImage` along a successful cache check. -/
theorem fetch_eq_fetchAfterCheck (od : DBBackedOCIDiscovery) (env : FetchEnv)
    (st : CacheState) (d : String) (hd : env.baseDigest = .ok d) :
    fetchInventoryImage od env st = fetchAfterCheck od env
      (checkDigestFileExistence st d "").1
      (checkDigestFileExistence (checkDigestFileExistence st d "").2 env.metaDigest "metadata.").1
      (checkDigestFileExistence (checkDigestFileExistence st d "").2 env.metaDigest "metadata.").2 := by
  unfold fetchInventoryImage
  rw [checkImageCache_ok od.image env st d hd]

/-- `downloadInventoryDatabase` when the overlay download succeeded but the
merge fails: the merge error is fatal. -/
theorem download_merge_error (name : String) (env : FetchEnv) (st : CacheState)
    (mc em : String) (hbd : ∃ bc, env.baseDownload = .ok bc)
    (hmd : env.metaDownload = some mc) (hmerge : env.mergeResult = .error em) :
    downloadInventoryDatabase name env st = .error (mergeFailureMsg em) := by
  obtain ⟨bc, hbc⟩ := hbd
  unfold downloadInventoryDatabase
  rw [hbc, hmd, hmerge]

/-- `downloadInventoryDatabase` when the overlay download fails: the merge
is skipped and the base content is promoted unmodified. -/
theorem download_no_meta (name : String) (env : FetchEnv) (st : CacheState) (bc : String)
    (hbd : env.baseDownload = .ok bc) (hmd : env.metaDownload = none)
    (hcopy : env.copyErr = none) :
    downloadInventoryDatabase name env st = .ok { st with catalog := some bc } := by
  unfold downloadInventoryDatabase
  rw [hbd, hmd, hcopy]

/-- Creating the marker files does not touch the catalog file. -/
theorem markers_catalog (st2 : CacheState) (f1 f2 : String) :
    (createMarkers f1 f2 st2).catalog = st2.catalog := by
  unfold createMarkers
  by_cases h2 : f2 = "" <;> by_cases h1 : f1 = "" <;>
    simp [h2, h1, createFile_catalog]

/-- C4: when the digest probe of the base image reference fails,
`checkImageCache` returns an error whose message contains the base image
reference, the refresh aborts with exactly that error, no verification or
download happens, and the cache directory is not mutated at all. -/
theorem base_probe_failure_aborts (od : DBBackedOCIDiscovery) (env : FetchEnv)
    (st : CacheState) (e : String) (hprobe : env.baseDigest = .error e) :
    checkImageCache od.image env st = .error (resolutionFailureMsg od.image e) ∧
    fetchInventoryImage od env st =
      (.error (resolutionFailureMsg od.image e), st, ⟨1, 0, 0, 0, 0⟩) ∧
    ∃ a b, resolutionFailureMsg od.image e = a ++ od.image ++ b := by
  have hc : checkImageCache od.image env st = .error (resolutionFailureMsg od.image e) := by
    unfold checkImageCache
    rw [hprobe]
  refine ⟨hc, ?_, ?_⟩
  · unfold fetchInventoryImage
    rw [hc]
  · refine ⟨"plugins discovery image resolution failed. Please check that the repository image URL \"",
      "\" is correct: " ++ e, ?_⟩
    unfold resolutionFailureMsg
    rw [String.append_assoc]

/-- Concrete run of `base_probe_failure_aborts`: probing `img` fails with
`boom`, the refresh aborts, the stale marker is kept untouched. -/
theorem base_probe_failure_aborts_witness :
    fetchInventoryImage ⟨"disc", "img", none, none, false⟩
        ⟨.error "boom", "", none, .ok "B", none, .ok "M", none⟩
        ⟨["digest.d1"], some "C"⟩ =
      (.error (resolutionFailureMsg "img" "boom"), ⟨["digest.d1"], some "C"⟩,
        ⟨1, 0, 0, 0, 0⟩) :=
  (base_probe_failure_aborts ⟨"disc", "img", none, none, false⟩
    ⟨.error "boom", "", none, .ok "B", none, .ok "M", none⟩
    ⟨["digest.d1"], some "C"⟩ "boom" rfl).2.1

/-- C6 counterexample: a refresh triggered by a stale base marker whose
signature verification fails returns the verification error without
downloading, but the cache is NOT unchanged: the stale marker `digest.old`
was already deleted by the validation step before the signature check ran. -/
theorem verify_failure_cache_changed_cex :
    fetchInventoryImage ⟨"disc", "img", none, none, false⟩
        ⟨.ok "d1", "", some "sigerr", .ok "B", none, .ok "M", none⟩
        ⟨["digest.old"], some "C"⟩ =
      (.error "sigerr", ⟨[], some "C"⟩, ⟨1, 1, 1, 0, 0⟩) ∧
    (⟨[], some "C"⟩ : CacheState) ≠ ⟨["digest.old"], some "C"⟩ := by
  refine ⟨rfl, ?_⟩
  decide

/-- C6 (amended): for every triggered refresh, the signature is verified
before any download is attempted: when verification fails, the refresh
returns exactly that error, no download is performed, no marker file is
created, and the catalog file is untouched — the cache directory keeps a
subset of its previous files (stale digest markers may already have been
deleted by the validation step that preceded verification). -/
theorem verify_failure_no_download (od : DBBackedOCIDiscovery) (env : FetchEnv)
    (st : CacheState) (d e : String)
    (hd : env.baseDigest = .ok d) (hsig : env.sigVerify = some e)
    (htrig : ∀ f1 f2 st1, checkImageCache od.image env st = .ok (f1, f2, st1) →
      ¬(f1 = "" ∧ f2 = "")) :
    ∃ st1, fetchInventoryImage od env st = (.error e, st1, ⟨1, 1, 1, 0, 0⟩) ∧
      st1.catalog = st.catalog ∧ ∀ f ∈ st1.files, f ∈ st.files := by
  have hc := checkImageCache_ok od.image env st d hd
  have hne := htrig _ _ _ hc
  refine ⟨_, ?_, checkChain_catalog st d env.metaDigest, checkChain_subset st d env.metaDigest⟩
  rw [fetch_eq_fetchAfterCheck od env st d hd]
  unfold fetchAfterCheck
  rw [if_neg hne, hsig]

/-- Concrete run of `verify_failure_no_download`: same scenario as the
counterexample, exhibiting the amended guarantees. -/
theorem verify_failure_no_download_witness :
    fetchInventoryImage ⟨"disc", "img", none, none, false⟩
        ⟨.ok "d1", "", some "sigerr", .ok "B", none, .ok "M", none⟩
        ⟨["digest.old"], some "C"⟩ =
      (.error "sigerr", ⟨[], some "C"⟩, ⟨1, 1, 1, 0, 0⟩) ∧
    (⟨[], some "C"⟩ : CacheState).catalog =
      (⟨["digest.old"], some "C"⟩ : CacheState).catalog := by
  have htrig : ∀ f1 f2 st1, checkImageCache "img"
      ⟨.ok "d1", "", some "sigerr", .ok "B", none, .ok "M", none⟩
      ⟨["digest.old"], some "C"⟩ = .ok (f1, f2, st1) → ¬(f1 = "" ∧ f2 = "") := by
    intro f1 f2 st1 hc hand
    have heval : checkImageCache "img"
        ⟨.ok "d1", "", some "sigerr", .ok "B", none, .ok "M", none⟩
        ⟨["digest.old"], some "C"⟩ =
        .ok ("digest.d1", "metadata.digest.none", ⟨[], some "C"⟩) := rfl
    rw [heval] at hc
    injection hc with h2
    have hf1 : "digest.d1" = f1 := congrArg (fun t => t.1) h2
    rw [hand.1] at hf1
    exact absurd hf1 (by decide)
  obtain ⟨st1, h1, _, _⟩ := verify_failure_no_download ⟨"disc", "img", none, none, false⟩
    ⟨.ok "d1", "", some "sigerr", .ok "B", none, .ok "M", none⟩
    ⟨["digest.old"], some "C"⟩ "d1" "sigerr" rfl rfl htrig
  have hconc : fetchInventoryImage ⟨"disc", "img", none, none, false⟩
      ⟨.ok "d1", "", some "sigerr", .ok "B", none, .ok "M", none⟩
      ⟨["digest.old"], some "C"⟩ =
      (.error "sigerr", ⟨[], some "C"⟩, ⟨1, 1, 1, 0, 0⟩) := rfl
  have hst : st1 = ⟨[], some "C"⟩ :=
    congrArg (fun t => t.2.1) (h1.symm.trans hconc)
  exact ⟨hst ▸ h1, rfl⟩

/-- C2 counterexample: a refresh triggered by a stale overlay marker in
which the merge fails returns an error and leaves the catalog file intact,
but the pre-existing markers are NOT byte-identical to their pre-refresh
state: the stale marker `metadata.digest.old` was already deleted by the
validation step before the merge ran. -/
theorem merge_failure_marker_deleted_cex :
    fetchInventoryImage ⟨"disc", "img", none, none, false⟩
        ⟨.ok "d1", "d2", none, .ok "B", some "M", .error "boom", none⟩
        ⟨["digest.d1", "metadata.digest.old"], some "C"⟩ =
      (.error (mergeFailureMsg "boom"), ⟨["digest.d1"], some "C"⟩, ⟨1, 1, 1, 1, 1⟩) ∧
    (⟨["digest.d1"], some "C"⟩ : CacheState) ≠
      ⟨["digest.d1", "metadata.digest.old"], some "C"⟩ := by
  refine ⟨rfl, ?_⟩
  decide

/-- C2 (amended): when the overlay download succeeded but the merge fails,
the refresh returns the merge error, promotion never happens (the catalog
file in the cache is byte-identical to its pre-refresh content), and no
digest marker file is created — the cache keeps a subset of its previous
files, though stale digest markers may already have been deleted by the
validation step. -/
theorem merge_failure_no_promotion (od : DBBackedOCIDiscovery) (env : FetchEnv)
    (st : CacheState) (d bc mc em : String)
    (hd : env.baseDigest = .ok d) (hsig : env.sigVerify = none)
    (hbd : env.baseDownload = .ok bc) (hmd : env.metaDownload = some mc)
    (hmerge : env.mergeResult = .error em)
    (htrig : ∀ f1 f2 st1, checkImageCache od.image env st = .ok (f1, f2, st1) →
      ¬(f1 = "" ∧ f2 = "")) :
    ∃ st1, fetchInventoryImage od env st =
        (.error (mergeFailureMsg em), st1, ⟨1, 1, 1, 1, 1⟩) ∧
      st1.catalog = st.catalog ∧ ∀ f ∈ st1.files, f ∈ st.files := by
  have hc := checkImageCache_ok od.image env st d hd
  have hne := htrig _ _ _ hc
  refine ⟨_, ?_, checkChain_catalog st d env.metaDigest, checkChain_subset st d env.metaDigest⟩
  rw [fetch_eq_fetchAfterCheck od env st d hd]
  unfold fetchAfterCheck
  rw [if_neg hne, hsig, download_merge_error od.name env _ mc em ⟨bc, hbd⟩ hmd hmerge]
  unfold downloadTrace
  rw [hbd]

/-- Concrete run of `merge_failure_no_promotion`: same scenario as the
counterexample, exhibiting the amended guarantees. -/
theorem merge_failure_no_promotion_witness :
    fetchInventoryImage ⟨"disc", "img", none, none, false⟩
        ⟨.ok "d1", "d2", none, .ok "B", some "M", .error "boom", none⟩
        ⟨["digest.d1", "metadata.digest.old"], some "C"⟩ =
      (.error (mergeFailureMsg "boom"), ⟨["digest.d1"], some "C"⟩, ⟨1, 1, 1, 1, 1⟩) ∧
    (⟨["digest.d1"], some "C"⟩ : CacheState).catalog =
      (⟨["digest.d1", "metadata.digest.old"], some "C"⟩ : CacheState).catalog := by
  have htrig : ∀ f1 f2 st1, checkImageCache "img"
      ⟨.ok "d1", "d2", none, .ok "B", some "M", .error "boom", none⟩
      ⟨["digest.d1", "metadata.digest.old"], some "C"⟩ = .ok (f1, f2, st1) →
      ¬(f1 = "" ∧ f2 = "") := by
    intro f1 f2 st1 hc hand
    have heval : checkImageCache "img"
        ⟨.ok "d1", "d2", none, .ok "B", some "M", .error "boom", none⟩
        ⟨["digest.d1", "metadata.digest.old"], some "C"⟩ =
        .ok ("", "metadata.digest.d2", ⟨["digest.d1"], some "C"⟩) := rfl
    rw [heval] at hc
    injection hc with h2
    have hf2 : "metadata.digest.d2" = f2 := congrArg (fun t => t.2.1) h2
    rw [hand.2] at hf2
    exact absurd hf2 (by decide)
  obtain ⟨st1, h1, _, _⟩ := merge_failure_no_promotion ⟨"disc", "img", none, none, false⟩
    ⟨.ok "d1", "d2", none, .ok "B", some "M", .error "boom", none⟩
    ⟨["digest.d1", "metadata.digest.old"], some "C"⟩ "d1" "B" "M" "boom"
    rfl rfl rfl rfl rfl htrig
  have hconc : fetchInventoryImage ⟨"disc", "img", none, none, false⟩
      ⟨.ok "d1", "d2", none, .ok "B", some "M", .error "boom", none⟩
      ⟨["digest.d1", "metadata.digest.old"], some "C"⟩ =
      (.error (mergeFailureMsg "boom"), ⟨["digest.d1"], some "C"⟩, ⟨1, 1, 1, 1, 1⟩) := rfl
  have hst : st1 = ⟨["digest.d1"], some "C"⟩ :=
    congrArg (fun t => t.2.1) (h1.symm.trans hconc)
  exact ⟨hst ▸ h1, rfl⟩

/-- C5: absence of the overlay is never an error: a failed overlay digest
probe makes `checkImageCache` substitute the `none` sentinel and still
succeed, and a failed overlay image download makes
`downloadInventoryDatabase` skip the merge, so the refresh proceeds and the
base catalog content is promoted to the cache unmodified, with the sentinel
marker `metadata.digest.none` present in the cache afterwards. -/
theorem overlay_absence_not_error (od : DBBackedOCIDiscovery) (env : FetchEnv)
    (st : CacheState) (d bc : String)
    (hd : env.baseDigest = .ok d) (hmdig : env.metaDigest = "")
    (hsig : env.sigVerify = none) (hbd : env.baseDownload = .ok bc)
    (hmd : env.metaDownload = none) (hcopy : env.copyErr = none)
    (htrig : ∀ f1 f2 st1, checkImageCache od.image env st = .ok (f1, f2, st1) →
      ¬(f1 = "" ∧ f2 = "")) :
    (∃ r, checkImageCache od.image env st = .ok r) ∧
    expectedMarker env.metaDigest "metadata." = "metadata.digest.none" ∧
    ∃ st4, fetchInventoryImage od env st = (.ok (), st4, ⟨1, 1, 1, 1, 1⟩) ∧
      st4.catalog = some bc ∧ "metadata.digest.none" ∈ st4.files := by
  have hc := checkImageCache_ok od.image env st d hd
  have hne := htrig _ _ _ hc
  have hexp : expectedMarker env.metaDigest "metadata." = "metadata.digest.none" := by
    rw [hmdig]
    decide
  refine ⟨⟨_, hc⟩, hexp,
    createMarkers (checkDigestFileExistence st d "").1
      (checkDigestFileExistence (checkDigestFileExistence st d "").2
        env.metaDigest "metadata.").1
      { (checkDigestFileExistence (checkDigestFileExistence st d "").2
          env.metaDigest "metadata.").2 with catalog := some bc },
    ?_, ?_, ?_⟩
  · rw [fetch_eq_fetchAfterCheck od env st d hd]
    unfold fetchAfterCheck
    rw [if_neg hne, hsig, download_no_meta od.name env _ bc hbd hmd hcopy]
    unfold downloadTrace
    rw [hbd]
  · rw [markers_catalog]
  · unfold createMarkers
    by_cases hf2 : (checkDigestFileExistence (checkDigestFileExistence st d "").2
        env.metaDigest "metadata.").1 = ""
    · rw [if_pos hf2]
      obtain ⟨hsnd, hglob⟩ :=
        checkDigest_snd_of_fst_empty (checkDigestFileExistence st d "").2
          env.metaDigest "metadata." hf2
      have hmemA : "metadata.digest.none" ∈ ((checkDigestFileExistence st d "").2).files := by
        have hmm : expectedMarker env.metaDigest "metadata." ∈
            globMatches (checkDigestFileExistence st d "").2 "metadata." := by
          rw [hglob]
          exact List.mem_singleton_self _
        rw [hexp] at hmm
        exact (mem_globMatches.mp hmm).1
      have hmem1 : "metadata.digest.none" ∈
          ((checkDigestFileExistence (checkDigestFileExistence st d "").2
            env.metaDigest "metadata.").2).files := by
        rw [hsnd]
        exact hmemA
      by_cases h1 : (checkDigestFileExistence st d "").1 = ""
      · rw [if_pos h1]
        exact hmem1
      · rw [if_neg h1]
        exact mem_createFile_of_mem _ _ _ hmem1
    · rw [if_neg hf2]
      have hfe : (checkDigestFileExistence (checkDigestFileExistence st d "").2
          env.metaDigest "metadata.").1 = expectedMarker env.metaDigest "metadata." :=
        (checkDigest_fst_cases (checkDigestFileExistence st d "").2
          env.metaDigest "metadata.").resolve_left hf2
      rw [hfe, hexp]
      exact mem_createFile_self _ _

/-- Concrete run of `overlay_absence_not_error`: empty cache, no overlay at
all — the refresh succeeds, promotes the base content unmodified, and
leaves the sentinel marker in the cache. -/
theorem overlay_absence_not_error_witness :
    checkImageCache "img" ⟨.ok "d1", "", none, .ok "B", none, .ok "M", none⟩ ⟨[], none⟩ =
      .ok ("digest.d1", "metadata.digest.none", ⟨[], none⟩) ∧
    expectedMarker "" "metadata." = "metadata.digest.none" ∧
    fetchInventoryImage ⟨"disc", "img", none, none, false⟩
        ⟨.ok "d1", "", none, .ok "B", none, .ok "M", none⟩ ⟨[], none⟩ =
      (.ok (), ⟨["metadata.digest.none", "digest.d1"], some "B"⟩, ⟨1, 1, 1, 1, 1⟩) ∧
    (⟨["metadata.digest.none", "digest.d1"], some "B"⟩ : CacheState).catalog = some "B" ∧
    "metadata.digest.none" ∈
      (⟨["metadata.digest.none", "digest.d1"], some "B"⟩ : CacheState).files := by
  have htrig : ∀ f1 f2 st1, checkImageCache "img"
      ⟨.ok "d1", "", none, .ok "B", none, .ok "M", none⟩ ⟨[], none⟩ = .ok (f1, f2, st1) →
      ¬(f1 = "" ∧ f2 = "") := by
    intro f1 f2 st1 hc hand
    have heval : checkImageCache "img" ⟨.ok "d1", "", none, .ok "B", none, .ok "M", none⟩
        ⟨[], none⟩ = .ok ("digest.d1", "metadata.digest.none", ⟨[], none⟩) := rfl
    rw [heval] at hc
    injection hc with h2
    have hf1 : "digest.d1" = f1 := congrArg (fun t => t.1) h2
    rw [hand.1] at hf1
    exact absurd hf1 (by decide)
  obtain ⟨-, hexp, st4, h1, h2, h3⟩ := overlay_absence_not_error
    ⟨"disc", "img", none, none, false⟩
    ⟨.ok "d1", "", none, .ok "B", none, .ok "M", none⟩ ⟨[], none⟩ "d1" "B"
    rfl rfl rfl rfl rfl rfl htrig
  have hconc : fetchInventoryImage ⟨"disc", "img", none, none, false⟩
      ⟨.ok "d1", "", none, .ok "B", none, .ok "M", none⟩ ⟨[], none⟩ =
      (.ok (), ⟨["metadata.digest.none", "digest.d1"], some "B"⟩, ⟨1, 1, 1, 1, 1⟩) := rfl
  have hst : st4 = ⟨["metadata.digest.none", "digest.d1"], some "B"⟩ :=
    congrArg (fun t => t.2.1) (h1.symm.trans hconc)
  exact ⟨rfl, hexp, hst ▸ h1, hst ▸ h2, hst ▸ h3⟩

/-- A successful `downloadInventoryDatabase` only replaces the catalog
file content; it touches no other file of the cache directory. -/
theorem download_ok_files (name : String) (env : FetchEnv) (stX st2 : CacheState)
    (h : downloadInventoryDatabase name env stX = .ok st2) : st2.files = stX.files := by
  unfold downloadInventoryDatabase at h
  cases hb : env.baseDownload with
  | error e =>
    rw [hb] at h
    exact Except.noConfusion h
  | ok bc =>
    rw [hb] at h
    cases hm : env.metaDownload with
    | some mc =>
      rw [hm] at h
      cases hg : env.mergeResult with
      | error e =>
        rw [hg] at h
        exact Except.noConfusion h
      | ok mg =>
        rw [hg] at h
        cases hcp : env.copyErr with
        | some e =>
          rw [hcp] at h
          exact Except.noConfusion h
        | none =>
          rw [hcp] at h
          injection h with h2
          rw [← h2]
    | none =>
      rw [hm] at h
      cases hcp : env.copyErr with
      | some e =>
        rw [hcp] at h
        exact Except.noConfusion h
      | none =>
        rw [hcp] at h
        injection h with h2
        rw [← h2]

theorem globMatches_eq_of_files {st2 stX : CacheState} (h : st2.files = stX.files)
    (p : String) : globMatches st2 p = globMatches stX p := by
  unfold globMatches
  rw [h]

/-- When the cache already holds exactly the expected marker, the digest
check reports up-to-date and leaves the cache untouched. -/
theorem checkDigest_of_matches_expected (st : CacheState) (h p : String)
    (hm : globMatches st p = [expectedMarker h p]) :
    checkDigestFileExistence st h p = ("", st) := by
  rcases checkDigest_spec st h p with ⟨hl, _⟩ | ⟨_, he⟩ | ⟨x, hx, hne, _⟩ | ⟨hx, _⟩
  · rw [hm] at hl
    simp at hl
  · exact he
  · rw [hm] at hx
    injection hx with h1 _
    exact absurd h1.symm hne
  · rw [hm] at hx
    exact absurd hx (List.cons_ne_nil _ _)

/-- After the marker files are created, each prefix has exactly its
expected marker as the unique glob match. -/
theorem globMatches_createMarkers (st2 : CacheState) (d m f1 f2 : String)
    (hf1 : f1 = "" ∨ f1 = expectedMarker d "")
    (hf2 : f2 = "" ∨ f2 = expectedMarker m "metadata.")
    (hbase : globMatches st2 "" = (if f1 = "" then [expectedMarker d ""] else []))
    (hmeta : globMatches st2 "metadata." =
      (if f2 = "" then [expectedMarker m "metadata."] else [])) :
    globMatches (createMarkers f1 f2 st2) "" = [expectedMarker d ""] ∧
    globMatches (createMarkers f1 f2 st2) "metadata." = [expectedMarker m "metadata."] := by
  unfold createMarkers
  have hinnerBase :
      globMatches (if f1 = "" then st2 else createFile st2 f1) "" = [expectedMarker d ""] := by
    by_cases h1 : f1 = ""
    · rw [if_pos h1, hbase, if_pos h1]
    · rw [if_neg h1]
      have hf1e : f1 = expectedMarker d "" := hf1.resolve_left h1
      rw [hf1e]
      exact globMatches_createFile_self st2 _ "" (matchesDigestGlob_expected d "")
        (by rw [hbase, if_neg h1])
  have hinnerMeta : globMatches (if f1 = "" then st2 else createFile st2 f1) "metadata." =
      (if f2 = "" then [expectedMarker m "metadata."] else []) := by
    by_cases h1 : f1 = ""
    · rw [if_pos h1, hmeta]
    · rw [if_neg h1]
      have hf1e : f1 = expectedMarker d "" := hf1.resolve_left h1
      rw [hf1e, globMatches_createFile_disj st2 _ "metadata."
        (matchesDigestGlob_meta_of_base (matchesDigestGlob_expected d ""))]
      exact hmeta
  constructor
  · by_cases h2 : f2 = ""
    · rw [if_pos h2]
      exact hinnerBase
    · rw [if_neg h2]
      have hf2e : f2 = expectedMarker m "metadata." := hf2.resolve_left h2
      rw [hf2e, globMatches_createFile_disj _ _ ""
        (matchesDigestGlob_base_of_meta (matchesDigestGlob_expected m "metadata."))]
      exact hinnerBase
  · by_cases h2 : f2 = ""
    · rw [if_pos h2, hinnerMeta, if_pos h2]
    · rw [if_neg h2]
      have hf2e : f2 = expectedMarker m "metadata." := hf2.resolve_left h2
      rw [hf2e]
      exact globMatches_createFile_self _ _ "metadata."
        (matchesDigestGlob_expected m "metadata.") (by rw [hinnerMeta, if_neg h2])

/-- After any successful `fetchInventoryImage`, the cache holds exactly the
expected marker for each prefix (either it was already there, or every
other match was deleted and the expected one created). -/
theorem fetch_ok_matches (od : DBBackedOCIDiscovery) (env : FetchEnv)
    (st st1 : CacheState) (tr : Trace) (d : String)
    (hd : env.baseDigest = .ok d)
    (hfetch : fetchInventoryImage od env st = (.ok (), st1, tr)) :
    globMatches st1 "" = [expectedMarker d ""] ∧
    globMatches st1 "metadata." = [expectedMarker env.metaDigest "metadata."] := by
  rw [fetch_eq_fetchAfterCheck od env st d hd] at hfetch
  unfold fetchAfterCheck at hfetch
  by_cases hboth : (checkDigestFileExistence st d "").1 = "" ∧
      (checkDigestFileExistence (checkDigestFileExistence st d "").2
        env.metaDigest "metadata.").1 = ""
  · rw [if_pos hboth] at hfetch
    have hst1 : (checkDigestFileExistence (checkDigestFileExistence st d "").2
        env.metaDigest "metadata.").2 = st1 :=
      congrArg (fun t => t.2.1) hfetch
    constructor
    · rw [← hst1,
        checkDigest_disj (checkDigestFileExistence st d "").2 env.metaDigest "metadata." ""
          (fun f hf => matchesDigestGlob_base_of_meta hf),
        globMatches_after_check st d "", if_pos hboth.1]
    · rw [← hst1,
        globMatches_after_check (checkDigestFileExistence st d "").2 env.metaDigest "metadata.",
        if_pos hboth.2]
  · rw [if_neg hboth] at hfetch
    cases hsv : env.sigVerify with
    | some e =>
      rw [hsv] at hfetch
      have hcon := congrArg (fun t => t.1) hfetch
      exact absurd hcon (by simp)
    | none =>
      rw [hsv] at hfetch
      cases hdl : downloadInventoryDatabase od.name env
          (checkDigestFileExistence (checkDigestFileExistence st d "").2
            env.metaDigest "metadata.").2 with
      | error e =>
        rw [hdl] at hfetch
        have hcon := congrArg (fun t => t.1) hfetch
        exact absurd hcon (by simp)
      | ok st2 =>
        rw [hdl] at hfetch
        have hst1 : createMarkers (checkDigestFileExistence st d "").1
            (checkDigestFileExistence (checkDigestFileExistence st d "").2
              env.metaDigest "metadata.").1 st2 = st1 :=
          congrArg (fun t => t.2.1) hfetch
        have hfiles := download_ok_files od.name env _ st2 hdl
        have hbase : globMatches st2 "" =
            (if (checkDigestFileExistence st d "").1 = ""
             then [expectedMarker d ""] else []) :=
          (globMatches_eq_of_files hfiles "").trans
            ((checkDigest_disj (checkDigestFileExistence st d "").2 env.metaDigest "metadata." ""
              (fun f hf => matchesDigestGlob_base_of_meta hf)).trans
              (globMatches_after_check st d ""))
        have hmeta : globMatches st2 "metadata." =
            (if (checkDigestFileExistence (checkDigestFileExistence st d "").2
                env.metaDigest "metadata.").1 = ""
             then [expectedMarker env.metaDigest "metadata."] else []) :=
          (globMatches_eq_of_files hfiles "metadata.").trans
            (globMatches_after_check (checkDigestFileExistence st d "").2
              env.metaDigest "metadata.")
        rw [← hst1]
        exact globMatches_createMarkers st2 d env.metaDigest _ _
          (checkDigest_fst_cases st d "")
          (checkDigest_fst_cases (checkDigestFileExistence st d "").2 env.metaDigest "metadata.")
          hbase hmeta

/-- C3: validation is idempotent: after a successful `fetchInventoryImage`,
a second call with the same probed digests finds both marker paths empty
(`checkImageCache` returns two empty names), performs no signature
verification and no download, and leaves the cache exactly as it was. -/
theorem fetch_twice_idempotent (od : DBBackedOCIDiscovery) (env : FetchEnv)
    (st st1 : CacheState) (tr : Trace) (d : String)
    (hd : env.baseDigest = .ok d)
    (hfetch : fetchInventoryImage od env st = (.ok (), st1, tr)) :
    checkImageCache od.image env st1 = .ok ("", "", st1) ∧
    fetchInventoryImage od env st1 = (.ok (), st1, ⟨1, 1, 0, 0, 0⟩) := by
  obtain ⟨hbase, hmeta⟩ := fetch_ok_matches od env st st1 tr d hd hfetch
  have hA : checkDigestFileExistence st1 d "" = ("", st1) :=
    checkDigest_of_matches_expected st1 d "" hbase
  have hB : checkDigestFileExistence st1 env.metaDigest "metadata." = ("", st1) :=
    checkDigest_of_matches_expected st1 env.metaDigest "metadata." hmeta
  have hA1 : (checkDigestFileExistence st1 d "").1 = "" := by rw [hA]
  have hA2 : (checkDigestFileExistence st1 d "").2 = st1 := by rw [hA]
  have hB1 : (checkDigestFileExistence st1 env.metaDigest "metadata.").1 = "" := by rw [hB]
  have hB2 : (checkDigestFileExistence st1 env.metaDigest "metadata.").2 = st1 := by rw [hB]
  have hc2 := checkImageCache_ok od.image env st1 d hd
  rw [hA2, hB1, hB2, hA1] at hc2
  refine ⟨hc2, ?_⟩
  unfold fetchInventoryImage
  rw [hc2]
  show fetchAfterCheck od env "" "" st1 = (.ok (), st1, ⟨1, 1, 0, 0, 0⟩)
  unfold fetchAfterCheck
  rw [if_pos ⟨rfl, rfl⟩]

/-- Concrete run of `fetch_twice_idempotent`: a fresh-install refresh fills
the cache; the immediate re-check reports no refresh needed with no
verification and no download. -/
theorem fetch_twice_idempotent_witness :
    checkImageCache "img" ⟨.ok "d1", "", none, .ok "B", none, .ok "M", none⟩
        ⟨["metadata.digest.none", "digest.d1"], some "B"⟩ =
      .ok ("", "", ⟨["metadata.digest.none", "digest.d1"], some "B"⟩) ∧
    fetchInventoryImage ⟨"disc", "img", none, none, false⟩
        ⟨.ok "d1", "", none, .ok "B", none, .ok "M", none⟩
        ⟨["metadata.digest.none", "digest.d1"], some "B"⟩ =
      (.ok (), ⟨["metadata.digest.none", "digest.d1"], some "B"⟩, ⟨1, 1, 0, 0, 0⟩) :=
  fetch_twice_idempotent ⟨"disc", "img", none, none, false⟩
    ⟨.ok "d1", "", none, .ok "B", none, .ok "M", none⟩
    ⟨[], none⟩ ⟨["metadata.digest.none", "digest.d1"], some "B"⟩ ⟨1, 1, 1, 1, 1⟩ "d1" rfl rfl

/-- C3 counterexample: even when no refresh is needed (both marker paths
empty on the second check, no verification, no download), the second check
itself still performs the two digest probes — network calls resolving the
base and metadata digests — so the second check is not free of network
calls. -/
theorem second_check_probes_cex :
    (fetchInventoryImage ⟨"disc", "img", none, none, false⟩
        ⟨.ok "d1", "", none, .ok "B", none, .ok "M", none⟩
        ⟨["metadata.digest.none", "digest.d1"], some "B"⟩).2.2 = ⟨1, 1, 0, 0, 0⟩ ∧
    (⟨1, 1, 0, 0, 0⟩ : Trace) ≠ ⟨0, 0, 0, 0, 0⟩ := ⟨rfl, by decide⟩

/-! ### The query layer over the catalog store -/

/-- Discovery type of this source, `common.DiscoveryTypeOCI`. -/
def DiscoveryTypeOCI : String := "oci"

/-- Scope assigned to discovered plugins, `common.PluginScopeStandalone`. -/
def PluginScopeStandalone : String := "Standalone"

/-- Install status assigned at discovery time,
`common.PluginStatusNotInstalled` — the designated not-yet-installed
default (the source comment reads: not set yet). -/
def PluginStatusNotInstalled : String := "not installed"

/-- The filter shape passed to `PluginInventory.GetPlugins`. -/
structure PluginInventoryFilter where
  name : String
  target : String
  version : String
  os : String
  arch : String
  includeHidden : Bool
deriving DecidableEq

/-- One catalog entry returned by the store (`PluginInventoryEntry`); the
artifact map from version strings to distribution descriptors is modelled
as an association list (descriptors are opaque here).  Fields of the Go
struct not read by `listPluginsFromInventory` are omitted. -/
structure PluginInventoryEntry where
  name : String
  target : String
  description : String
  recommendedVersion : String
  artifacts : List (String × String)
deriving DecidableEq

/-- The public query result row (`Discovered`, as filled in by
`listPluginsFromInventory`, lines 135-149). -/
structure Discovered where
  name : String
  description : String
  recommendedVersion : String
  installedVersion : String
  supportedVersions : List String
  distribution : List (String × String)
  optional : Bool
  scope : String
  source : String
  contextName : String
  discoveryType : String
  target : String
  status : String
deriving DecidableEq

/-- Modelled from the spec: the external helper `utils.SortVersions` is not
part of this repository.  Per the spec it sorts the version strings by
semantic-version precedence and returns an error when a version string
fails to parse, the sort proceeding best-effort instead of aborting.
`parseVersion` accepts `MAJOR.MINOR.PATCH` with an optional leading `v`. -/
def parseVersion (s : String) : Option (Nat × Nat × Nat) :=
  let t := if s.startsWith "v" then s.drop 1 else s
  match t.splitOn "." with
  | [a, b, c] =>
    match a.toNat?, b.toNat?, c.toNat? with
    | some x, some y, some z => some (x, y, z)
    | _, _, _ => none
  | _ => none

/-- Modelled from the spec: semantic-version precedence, parseable versions
first in numeric order, unparseable ones kept at the end in string order
(best-effort ordering). -/
def versionLE (a b : String) : Bool :=
  match parseVersion a, parseVersion b with
  | some x, some y =>
    decide (x.1 < y.1 ∨ (x.1 = y.1 ∧ (x.2.1 < y.2.1 ∨ (x.2.1 = y.2.1 ∧ x.2.2 ≤ y.2.2))))
  | some _, none => true
  | none, some _ => false
  | none, none => decide (a ≤ b)

/-- Modelled from the spec: `utils.SortVersions` sorts in place and returns
an error (non-fatal for the caller) when some version fails to parse. -/
def SortVersions (versions : List String) : List String × Option String :=
  (List.insertionSort (fun a b => versionLE a b = true) versions,
   if versions.all (fun v => (parseVersion v).isSome) then none
   else some "unable to parse invalid semantic version")

/-- The filter built by `listPluginsFromInventory` (lines 102-122) from the
optional criteria and the hidden-entry toggle read from the environment. -/
def pluginInventoryFilterOf (od : DBBackedOCIDiscovery) (shouldIncludeHidden : Bool) :
    PluginInventoryFilter :=
  match od.pluginCriteria with
  | none =>
    { name := "", target := "", version := "", os := "", arch := "",
      includeHidden := shouldIncludeHidden }
  | some c =>
    { name := c.name, target := c.target, version := c.version, os := c.os,
      arch := c.arch, includeHidden := shouldIncludeHidden }

/-- Adaptation of one catalog entry into a `Discovered` value
(lines 125-150): versions are the artifact map keys, sorted (a sort error
is only printed); provenance fields are fixed, runtime fields left unset. -/
def adaptPluginEntry (od : DBBackedOCIDiscovery) (entry : PluginInventoryEntry) :
    Discovered :=
  { name := entry.name
    description := entry.description
    recommendedVersion := entry.recommendedVersion
    installedVersion := ""
    supportedVersions := (SortVersions (entry.artifacts.map Prod.fst)).1
    distribution := entry.artifacts
    optional := false
    scope := PluginScopeStandalone
    source := od.name
    contextName := ""
    discoveryType := DiscoveryTypeOCI
    target := entry.target
    status := PluginStatusNotInstalled }

/-- Model of `listPluginsFromInventory` (lines 98-153); the store's
`GetPlugins` is the oracle `getPlugins`, and `shouldIncludeHidden` is the
boolean parsed from the environment variable. -/
def listPluginsFromInventory (od : DBBackedOCIDiscovery)
    (getPlugins : PluginInventoryFilter → Except String (List PluginInventoryEntry))
    (shouldIncludeHidden : Bool) : Except String (List Discovered) :=
  match getPlugins (pluginInventoryFilterOf od shouldIncludeHidden) with
  | .error e => .error e
  | .ok pluginEntries => .ok (pluginEntries.map (adaptPluginEntry od))

/-- The filter shape passed to `PluginInventory.GetPluginGroups`. -/
structure PluginGroupFilter where
  vendor : String
  publisher : String
  name : String
  version : String
  includeHidden : Bool
deriving DecidableEq

/-- One plugin-group record returned by the store (opaque to this layer:
`listGroupsFromInventory` returns the records unmodified). -/
structure PluginGroup where
  vendor : String
  publisher : String
  name : String
  description : String
  hidden : Bool
deriving DecidableEq

/-- The filter built by `listGroupsFromInventory` (lines 155-171). -/
def pluginGroupFilterOf (od : DBBackedOCIDiscovery) (shouldIncludeHidden : Bool) :
    PluginGroupFilter :=
  match od.groupCriteria with
  | none =>
    { vendor := "", publisher := "", name := "", version := "",
      includeHidden := shouldIncludeHidden }
  | some c =>
    { vendor := c.vendor, publisher := c.publisher, name := c.name,
      version := c.version, includeHidden := shouldIncludeHidden }

/-- Model of `listGroupsFromInventory` (lines 155-171). -/
def listGroupsFromInventory (od : DBBackedOCIDiscovery)
    (getPluginGroups : PluginGroupFilter → Except String (List PluginGroup))
    (shouldIncludeHidden : Bool) : Except String (List PluginGroup) :=
  getPluginGroups (pluginGroupFilterOf od shouldIncludeHidden)

/-- Error wrapper of `List` (line 73). -/
def pluginsFetchFailureMsg (name cause : String) : String :=
  "unable to fetch the inventory of discovery '" ++ name ++ "' for plugins: " ++ cause

/-- Error wrapper of `GetGroups` (line 90). -/
def groupsFetchFailureMsg (name cause : String) : String :=
  "unable to fetch the inventory of discovery '" ++ name ++ "' for groups: " ++ cause

/-- Model of the method `List` of `DBBackedOCIDiscovery` (lines 66-79);
renamed `ListPlugins` here because `List` clashes with the Lean type.
When `useLocalCacheOnly` is unset, the inventory image is fetched first
(errors wrapped, naming the discovery); then the query runs on the store. -/
def ListPlugins (od : DBBackedOCIDiscovery) (env : FetchEnv)
    (getPlugins : PluginInventoryFilter → Except String (List PluginInventoryEntry))
    (shouldIncludeHidden : Bool) (st : CacheState) :
    Except String (List Discovered) × CacheState × Trace :=
  if !od.useLocalCacheOnly then
    match fetchInventoryImage od env st with
    | (.error e, st1, tr) => (.error (pluginsFetchFailureMsg od.name e), st1, tr)
    | (.ok _, st1, tr) => (listPluginsFromInventory od getPlugins shouldIncludeHidden, st1, tr)
  else
    (listPluginsFromInventory od getPlugins shouldIncludeHidden, st, ⟨0, 0, 0, 0, 0⟩)

/-- Model of `GetGroups` (lines 83-96). -/
def GetGroups (od : DBBackedOCIDiscovery) (env : FetchEnv)
    (getPluginGroups : PluginGroupFilter → Except String (List PluginGroup))
    (shouldIncludeHidden : Bool) (st : CacheState) :
    Except String (List PluginGroup) × CacheState × Trace :=
  if !od.useLocalCacheOnly then
    match fetchInventoryImage od env st with
    | (.error e, st1, tr) => (.error (groupsFetchFailureMsg od.name e), st1, tr)
    | (.ok _, st1, tr) => (listGroupsFromInventory od getPluginGroups shouldIncludeHidden, st1, tr)
  else
    (listGroupsFromInventory od getPluginGroups shouldIncludeHidden, st, ⟨0, 0, 0, 0, 0⟩)

/-- C10: a successful `listPluginsFromInventory` returns exactly one
`Discovered` per entry returned by the store, by adapting the entries in
order (none dropped, none duplicated); when `GetPlugins` fails, that error
is returned unchanged and no results are produced. -/
theorem listPlugins_maps_entries (od : DBBackedOCIDiscovery)
    (getPlugins : PluginInventoryFilter → Except String (List PluginInventoryEntry))
    (shouldIncludeHidden : Bool) :
    (∀ entries, getPlugins (pluginInventoryFilterOf od shouldIncludeHidden) = .ok entries →
      listPluginsFromInventory od getPlugins shouldIncludeHidden =
        .ok (entries.map (adaptPluginEntry od)) ∧
      (entries.map (adaptPluginEntry od)).length = entries.length) ∧
    (∀ e, getPlugins (pluginInventoryFilterOf od shouldIncludeHidden) = .error e →
      listPluginsFromInventory od getPlugins shouldIncludeHidden = .error e) := by
  constructor
  · intro entries hok
    constructor
    · unfold listPluginsFromInventory
      rw [hok]
    · exact List.length_map _ _
  · intro e herr
    unfold listPluginsFromInventory
    rw [herr]

/-- Concrete runs of `listPlugins_maps_entries`: one store entry yields one
adapted result; a store error is passed through unchanged. -/
theorem listPlugins_maps_entries_witness :
    listPluginsFromInventory ⟨"disc", "img", none, none, true⟩
      (fun _ => .ok [⟨"p1", "global", "desc", "v1.0.0", [("v1.0.0", "a1")]⟩]) false =
      .ok [⟨"p1", "desc", "v1.0.0", "", ["v1.0.0"], [("v1.0.0", "a1")], false, "Standalone",
        "disc", "", "oci", "global", "not installed"⟩] ∧
    listPluginsFromInventory ⟨"disc", "img", none, none, true⟩
      (fun _ => .error "dberr") false = .error "dberr" := by
  constructor
  · exact (((listPlugins_maps_entries ⟨"disc", "img", none, none, true⟩
      (fun _ => .ok [⟨"p1", "global", "desc", "v1.0.0", [("v1.0.0", "a1")]⟩]) false).1
      [⟨"p1", "global", "desc", "v1.0.0", [("v1.0.0", "a1")]⟩] rfl).1).trans (by decide)
  · exact (listPlugins_maps_entries ⟨"disc", "img", none, none, true⟩
      (fun _ => .error "dberr") false).2 "dberr" rfl

/-- C9: each entry's supported-versions list is derived from all keys of
its artifact map; a version-parse failure during the semantic-version sort
is non-fatal: the query still returns success, the entry is included, and
the sorted list is a permutation of the artifact keys, so every version
string (including an unparseable one) remains present. -/
theorem version_sort_nonfatal (od : DBBackedOCIDiscovery)
    (getPlugins : PluginInventoryFilter → Except String (List PluginInventoryEntry))
    (shouldIncludeHidden : Bool) (entries : List PluginInventoryEntry)
    (hok : getPlugins (pluginInventoryFilterOf od shouldIncludeHidden) = .ok entries) :
    listPluginsFromInventory od getPlugins shouldIncludeHidden =
      .ok (entries.map (adaptPluginEntry od)) ∧
    ∀ entry ∈ entries,
      ((adaptPluginEntry od entry).supportedVersions).Perm (entry.artifacts.map Prod.fst) ∧
      ∀ v, v ∈ entry.artifacts.map Prod.fst ↔
        v ∈ (adaptPluginEntry od entry).supportedVersions := by
  constructor
  · unfold listPluginsFromInventory
    rw [hok]
  · intro entry _
    have hperm : ((adaptPluginEntry od entry).supportedVersions).Perm
        (entry.artifacts.map Prod.fst) :=
      List.perm_insertionSort _ _
    exact ⟨hperm, fun v => ⟨fun hv => hperm.mem_iff.mpr hv, fun hv => hperm.mem_iff.mp hv⟩⟩

/-- Concrete run of `version_sort_nonfatal` on the spec's example versions
`1.2.0, bogus, 1.10.0, 1.2.3`: the query succeeds and the produced list is
a permutation of the keys, `bogus` included. -/
theorem version_sort_nonfatal_witness :
    listPluginsFromInventory ⟨"disc", "img", none, none, true⟩
      (fun _ => .ok [⟨"p1", "global", "desc", "1.2.3",
        [("1.2.0", "a"), ("bogus", "b"), ("1.10.0", "c"), ("1.2.3", "d")]⟩]) false =
      .ok ([⟨"p1", "global", "desc", "1.2.3",
        [("1.2.0", "a"), ("bogus", "b"), ("1.10.0", "c"), ("1.2.3", "d")]⟩].map
          (adaptPluginEntry ⟨"disc", "img", none, none, true⟩)) ∧
    ((adaptPluginEntry ⟨"disc", "img", none, none, true⟩
      ⟨"p1", "global", "desc", "1.2.3",
        [("1.2.0", "a"), ("bogus", "b"), ("1.10.0", "c"), ("1.2.3", "d")]⟩).supportedVersions).Perm
      ["1.2.0", "bogus", "1.10.0", "1.2.3"] := by
  have h := version_sort_nonfatal ⟨"disc", "img", none, none, true⟩
    (fun _ => .ok [⟨"p1", "global", "desc", "1.2.3",
      [("1.2.0", "a"), ("bogus", "b"), ("1.10.0", "c"), ("1.2.3", "d")]⟩]) false
    [⟨"p1", "global", "desc", "1.2.3",
      [("1.2.0", "a"), ("bogus", "b"), ("1.10.0", "c"), ("1.2.3", "d")]⟩] rfl
  exact ⟨h.1, (h.2 _ (List.mem_singleton_self _)).1⟩

/-- C7: every `Discovered` produced by a successful plugin query has its
provenance fields fixed to the source's identity and the OCI
discovery-kind tag, and its runtime fields at their unset defaults: empty
installed version, empty context name, and the designated not-installed
status (the source comments read: not set when discovered). -/
theorem discovered_plugin_fields (od : DBBackedOCIDiscovery)
    (getPlugins : PluginInventoryFilter → Except String (List PluginInventoryEntry))
    (shouldIncludeHidden : Bool) (ps : List Discovered)
    (hok : listPluginsFromInventory od getPlugins shouldIncludeHidden = .ok ps) :
    ∀ p ∈ ps, p.source = od.name ∧ p.discoveryType = DiscoveryTypeOCI ∧
      p.installedVersion = "" ∧ p.contextName = "" ∧
      p.status = PluginStatusNotInstalled ∧ p.scope = PluginScopeStandalone ∧
      p.optional = false := by
  intro p hp
  unfold listPluginsFromInventory at hok
  cases hg : getPlugins (pluginInventoryFilterOf od shouldIncludeHidden) with
  | error e =>
    rw [hg] at hok
    exact Except.noConfusion hok
  | ok entries =>
    rw [hg] at hok
    injection hok with h2
    rw [← h2] at hp
    obtain ⟨entry, _, hpe⟩ := List.mem_map.mp hp
    rw [← hpe]
    exact ⟨rfl, rfl, rfl, rfl, rfl, rfl, rfl⟩

/-- Concrete run of `discovered_plugin_fields` on a one-entry store. -/
theorem discovered_plugin_fields_witness :
    (adaptPluginEntry ⟨"disc", "img", none, none, true⟩
        ⟨"p1", "global", "desc", "v1.0.0", [("v1.0.0", "a1")]⟩).source = "disc" ∧
    (adaptPluginEntry ⟨"disc", "img", none, none, true⟩
        ⟨"p1", "global", "desc", "v1.0.0", [("v1.0.0", "a1")]⟩).discoveryType =
      DiscoveryTypeOCI ∧
    (adaptPluginEntry ⟨"disc", "img", none, none, true⟩
        ⟨"p1", "global", "desc", "v1.0.0", [("v1.0.0", "a1")]⟩).installedVersion = "" ∧
    (adaptPluginEntry ⟨"disc", "img", none, none, true⟩
        ⟨"p1", "global", "desc", "v1.0.0", [("v1.0.0", "a1")]⟩).contextName = "" ∧
    (adaptPluginEntry ⟨"disc", "img", none, none, true⟩
        ⟨"p1", "global", "desc", "v1.0.0", [("v1.0.0", "a1")]⟩).status =
      PluginStatusNotInstalled ∧
    (adaptPluginEntry ⟨"disc", "img", none, none, true⟩
        ⟨"p1", "global", "desc", "v1.0.0", [("v1.0.0", "a1")]⟩).scope =
      PluginScopeStandalone ∧
    (adaptPluginEntry ⟨"disc", "img", none, none, true⟩
        ⟨"p1", "global", "desc", "v1.0.0", [("v1.0.0", "a1")]⟩).optional = false :=
  discovered_plugin_fields ⟨"disc", "img", none, none, true⟩
    (fun _ => .ok [⟨"p1", "global", "desc", "v1.0.0", [("v1.0.0", "a1")]⟩]) false
    [adaptPluginEntry ⟨"disc", "img", none, none, true⟩
      ⟨"p1", "global", "desc", "v1.0.0", [("v1.0.0", "a1")]⟩] rfl
    (adaptPluginEntry ⟨"disc", "img", none, none, true⟩
      ⟨"p1", "global", "desc", "v1.0.0", [("v1.0.0", "a1")]⟩)
    (List.mem_singleton_self _)

/-- C8: with `useLocalCacheOnly` set, the `List` and `GetGroups` methods
never invoke the refresh path — no digest probe, no signature
verification, no download (the trace is all zeroes) and no cache mutation
— and the query runs directly against the cached catalog store. -/
theorem local_cache_only_no_refresh (od : DBBackedOCIDiscovery) (env : FetchEnv)
    (getPlugins : PluginInventoryFilter → Except String (List PluginInventoryEntry))
    (getPluginGroups : PluginGroupFilter → Except String (List PluginGroup))
    (shouldIncludeHidden : Bool) (st : CacheState)
    (h : od.useLocalCacheOnly = true) :
    ListPlugins od env getPlugins shouldIncludeHidden st =
      (listPluginsFromInventory od getPlugins shouldIncludeHidden, st, ⟨0, 0, 0, 0, 0⟩) ∧
    GetGroups od env getPluginGroups shouldIncludeHidden st =
      (listGroupsFromInventory od getPluginGroups shouldIncludeHidden, st, ⟨0, 0, 0, 0, 0⟩) := by
  constructor
  · unfold ListPlugins
    rw [h, if_neg (by simp)]
  · unfold GetGroups
    rw [h, if_neg (by simp)]

/-- Concrete run of `local_cache_only_no_refresh`: even with an environment
in which every network operation would fail, a cache-only source answers
from the store with an all-zero network trace. -/
theorem local_cache_only_no_refresh_witness :
    ListPlugins ⟨"disc", "img", none, none, true⟩
      ⟨.error "down", "", some "sigerr", .error "down", none, .error "down", some "down"⟩
      (fun _ => .ok []) false ⟨["digest.d1"], some "C"⟩ =
      (.ok [], ⟨["digest.d1"], some "C"⟩, ⟨0, 0, 0, 0, 0⟩) ∧
    GetGroups ⟨"disc", "img", none, none, true⟩
      ⟨.error "down", "", some "sigerr", .error "down", none, .error "down", some "down"⟩
      (fun _ => .ok []) false ⟨["digest.d1"], some "C"⟩ =
      (.ok [], ⟨["digest.d1"], some "C"⟩, ⟨0, 0, 0, 0, 0⟩) :=
  local_cache_only_no_refresh ⟨"disc", "img", none, none, true⟩
    ⟨.error "down", "", some "sigerr", .error "down", none, .error "down", some "down"⟩
    (fun _ => .ok []) (fun _ => .ok []) false ⟨["digest.d1"], some "C"⟩ rfl

end TanzuDiscovery
